import Mathlib

attribute [local semireducible] Rat.add Rat.mul Rat.inv Rat.sub Rat.ofScientific

/-!
Shallow embedding of the core of the TS-Blood-Test-Analyser repository:
the range interpreter and report aggregator of `src/modules/analyzer.py`
(`Analyzer.analyze`, `Analyzer.get_status_color`, `Analyzer._try_float`) and
the identity resolver of `src/modules/normalizer.py`
(`Normalizer._find_best_match`).

Numeric values are modelled with `ℚ` (the source manipulates Python floats
through exact decimal literals and the arithmetic the claims speak about is
exact).  Python strings are modelled as `String` / `List Char`; `str.strip`
is modelled by `trimChars`, the builtin `float` by `pyFloat?` (decimal
literals with optional sign, fraction and exponent; the exotic inputs
`inf`, `nan` and underscore separators are out of scope), `str.isdigit` by
`pyIsDigit` (ASCII digits).  A Python `TypeError` escaping
`get_status_color` (a comparison of a float with `None`) is modelled by
`Except.error ()`; `Analyzer.analyze` absorbs it into the `"uncheckable"`
status exactly like the `try/except` of the source.
-/

deriving instance DecidableEq for Except

/-- Whitespace predicate modelling the character class stripped by
Python `str.strip` and matched by the regex class `\s`. -/
def isSpaceChar (c : Char) : Bool := c.isWhitespace

/-- Numeric value of a list of ASCII digits, most significant first. -/
def digitsVal (l : List Char) : ℕ :=
  l.foldl (fun a c => a * 10 + (c.toNat - 48)) 0

/-- Model of Python `str.isdigit` (ASCII): nonempty and all digits. -/
def pyIsDigit (l : List Char) : Bool := !l.isEmpty && l.all Char.isDigit

/-- Model of Python `str.strip`: remove leading and trailing whitespace. -/
def trimChars (cs : List Char) : List Char :=
  ((cs.dropWhile isSpaceChar).reverse.dropWhile isSpaceChar).reverse

/-- Model of Python `str.replace(".", "", 1)`: drop the first dot. -/
def removeFirstDot : List Char → List Char
  | [] => []
  | c :: r => if c = '.' then r else c :: removeFirstDot r

/-- Split a character list at the first exponent marker `e`/`E`. -/
def splitExp : List Char → List Char × Option (List Char)
  | [] => ([], none)
  | c :: r =>
    if c = 'e' ∨ c = 'E' then ([], some r)
    else
      let p := splitExp r
      (c :: p.1, p.2)

/-- Split a character list at the first dot. -/
def splitDot : List Char → List Char × Option (List Char)
  | [] => ([], none)
  | c :: r =>
    if c = '.' then ([], some r)
    else
      let p := splitDot r
      (c :: p.1, p.2)

/-- Mantissa of a Python float literal: `digits`, `digits.digits?` or
`.digits` (at least one digit overall). -/
def parseMantissa (cs : List Char) : Option ℚ :=
  match splitDot cs with
  | (ip, none) => if pyIsDigit ip then some (digitsVal ip : ℚ) else none
  | (ip, some fp) =>
    if ip.all Char.isDigit && fp.all Char.isDigit && !(ip.isEmpty && fp.isEmpty) then
      some ((digitsVal ip : ℚ) + (digitsVal fp : ℚ) / (10 : ℚ) ^ fp.length)
    else none

/-- Exponent part of a Python float literal: optional sign, then digits. -/
def parseExpPart (cs : List Char) : Option ℤ :=
  match cs with
  | '+' :: r => if pyIsDigit r then some (digitsVal r : ℤ) else none
  | '-' :: r => if pyIsDigit r then some (-(digitsVal r : ℤ)) else none
  | r => if pyIsDigit r then some (digitsVal r : ℤ) else none

/-- Model of Python's builtin `float(s)` on a character list: strip
whitespace, optional sign, decimal mantissa, optional exponent.  Returns
`none` when `float` would raise `ValueError`. -/
def pyFloat? (cs : List Char) : Option ℚ :=
  let t := trimChars cs
  let sr : ℚ × List Char :=
    match t with
    | '+' :: r => (1, r)
    | '-' :: r => (-1, r)
    | r => (1, r)
  match splitExp sr.2 with
  | (m, none) => (parseMantissa m).map (fun q => sr.1 * q)
  | (m, some e) =>
    match parseMantissa m, parseExpPart e with
    | some mv, some ev => some (sr.1 * mv * (10 : ℚ) ^ ev)
    | _, _ => none

/-- One number of the interval grammar of `get_status_color`'s Case 2
regex: `\d+(\.\d+)?` — digits, optionally a dot followed by digits.
Returns the value and the unconsumed remainder. -/
def parseRangeNum (cs : List Char) : Option (ℚ × List Char) :=
  match cs.takeWhile Char.isDigit with
  | [] => none
  | ds =>
    match cs.dropWhile Char.isDigit with
    | '.' :: r =>
      match r.takeWhile Char.isDigit with
      | [] => some ((digitsVal ds : ℚ), cs.dropWhile Char.isDigit)
      | fs =>
        some ((digitsVal ds : ℚ) + (digitsVal fs : ℚ) / (10 : ℚ) ^ fs.length,
          r.dropWhile Char.isDigit)
    | rest => some ((digitsVal ds : ℚ), rest)

/-- The dash class `[-–]` of the Case 2 regex: hyphen or en-dash. -/
def isDash (c : Char) : Bool := c = '-' || c = '–'

/-- Model of `re.match(r"^\s*\d+(\.\d+)?\s*[-–]\s*\d+(\.\d+)?\s*$", s)`
together with the subsequent split/float of `get_status_color` Case 2:
returns the two bounds when the healthy string is a numeric interval. -/
def matchRange? (cs : List Char) : Option (ℚ × ℚ) :=
  match parseRangeNum (cs.dropWhile isSpaceChar) with
  | none => none
  | some (low, rest1) =>
    match rest1.dropWhile isSpaceChar with
    | [] => none
    | c :: rest2 =>
      if isDash c then
        match parseRangeNum (rest2.dropWhile isSpaceChar) with
        | none => none
        | some (high, rest3) =>
          if rest3.dropWhile isSpaceChar = [] then some (low, high) else none
      else none

/-- The final colour decision of `get_status_color` (its last lines):
`user <= min_num or user >= max_num → red`, else warn band around the
healthy centre, else green.  A `none` bound hit by a comparison is a
Python `TypeError` (`float <= None`), modelled as `Except.error ()`;
the `or` short-circuits, so `v ≤ min` is decided before `max` is touched. -/
def applyColor (v hn : ℚ) (min_num max_num : Option ℚ) (t : ℚ) : Except Unit String :=
  match min_num with
  | none => .error ()
  | some mn =>
    if v ≤ mn then .ok "red"
    else
      match max_num with
      | none => .error ()
      | some mx =>
        if v ≥ mx then .ok "red"
        else if v ≤ hn * (1 - t) ∨ v ≥ hn * (1 + t) then .ok "yellow"
        else .ok "green"

/-- The fall-through tail of `get_status_color` (Case 5 and the safety
default): derive a missing healthy centre from `min`/`max`, default a
missing `min` to `0` when `max` is present, then apply the colour logic. -/
def colorTail (v : ℚ) (healthy_num min_num max_num : Option ℚ) (t : ℚ) :
    Except Unit String :=
  match healthy_num with
  | none =>
    match min_num, max_num with
    | some mn, some mx => applyColor v ((mn + mx) / 2) (some mn) (some mx) t
    | _, _ => .ok "check manually"
  | some hn =>
    match min_num, max_num with
    | none, some mx => applyColor v hn (some 0) (some mx) t
    | mn, mx => applyColor v hn mn mx t

/-- `Analyzer.get_status_color` after the initial `str(..).strip()` of its
three reference strings, operating on character lists.  The branches are,
in source order: the all-empty guard, Case 1 (plain digit string), Case 2
(numeric interval, decided and returned inline), Case 3 (`<X`), Case 4
(`>X`) and the fall-through tail. -/
def classifyChars (v : ℚ) (h mns mxs : List Char) (t : ℚ) : Except Unit String :=
  if h = [] ∧ mns = [] ∧ mxs = [] then .ok "check manually"
  else if pyIsDigit (removeFirstDot h) then
    colorTail v (pyFloat? h) (pyFloat? mns) (pyFloat? mxs) t
  else
    match matchRange? h with
    | some lh =>
      if v ≤ lh.1 - (lh.2 - lh.1) * (1/10) ∨ v ≥ lh.2 + (lh.2 - lh.1) * (1/10) then
        .ok "red"
      else if v ≤ lh.1 + (lh.2 - lh.1) * (1/10) ∨ v ≥ lh.2 - (lh.2 - lh.1) * (1/10) then
        .ok "yellow"
      else .ok "green"
    | none =>
      match h with
      | [] => colorTail v none (pyFloat? mns) (pyFloat? mxs) t
      | c :: tail =>
        if c = '<' then
          match pyFloat? tail with
          | some x => colorTail v (some x) (some 0) (some (x * (3/2))) t
          | none => .ok "check manually"
        else if c = '>' then
          match pyFloat? tail with
          | some x => colorTail v (some x) (some (x * (1/2))) (some (x * 10)) t
          | none => .ok "check manually"
        else colorTail v none (pyFloat? mns) (pyFloat? mxs) t

/-- `Analyzer.get_status_color(user_val_num, healthy_str, min_str, max_str,
tolerance)`: strip the three reference strings, then classify. -/
def get_status_color (user_val_num : ℚ) (healthy_str min_str max_str : String)
    (tolerance : ℚ) : Except Unit String :=
  classifyChars user_val_num (trimChars healthy_str.toList)
    (trimChars min_str.toList) (trimChars max_str.toList) tolerance

/-- One test entry of the healthy-ranges catalog (`healthy_ranges.json`):
`name`, `units`, and the three reference strings, with the `.get(_, "")`
defaults folded into the fields. -/
structure CatalogTest where
  name : String
  units : String
  healthy_value : String
  min : String
  max : String
deriving DecidableEq

/-- One category of the catalog: a name and its ordered tests. -/
structure RefCategory where
  name : String
  tests : List CatalogTest
deriving DecidableEq

/-- The per-test record stored by `Analyzer.analyze` in `status_dict`. -/
structure TestRecord where
  value : String
  min : String
  max : String
  units : String
  status : String
  healthy_value : String
deriving DecidableEq

/-- All tests of the catalog in catalog order (the two nested `for` loops
of `Analyzer.analyze`). -/
def catalogTests (catalog : List RefCategory) : List CatalogTest :=
  (catalog.map RefCategory.tests).flatten

/-- The canonical test names of the catalog, in catalog order. -/
def testNames (catalog : List RefCategory) : List String :=
  (catalogTests catalog).map CatalogTest.name

/-- The body of `Analyzer.analyze`'s loop for one test: strip the raw
value (`raw_data.get(test_name, "").strip()`), short-circuit to
`"empty"`, otherwise parse the value (`float(user_val)`) and classify;
any exception — a non-numeric value or a `TypeError` escaping
`get_status_color` — becomes `"uncheckable"`. -/
def analyzeTest (raw : String → Option String) (test : CatalogTest) : TestRecord :=
  let user_val := trimChars (((raw test.name).getD "").toList)
  let status :=
    if user_val = [] then "empty"
    else
      match pyFloat? user_val with
      | none => "uncheckable"
      | some v =>
        match get_status_color v test.healthy_value test.min test.max (1/10) with
        | .ok s => s
        | .error _ => "uncheckable"
  { value := String.mk user_val, min := test.min, max := test.max,
    units := test.units, status := status, healthy_value := test.healthy_value }

/-- Python `dict` assignment `d[k] = v`: replace in place if the key is
present, else append. -/
def dictInsert (d : List (String × TestRecord)) (k : String) (v : TestRecord) :
    List (String × TestRecord) :=
  match d with
  | [] => [(k, v)]
  | (k', v') :: rest =>
    if k' = k then (k, v) :: rest else (k', v') :: dictInsert rest k v

/-- The mutable state of `Analyzer.analyze`'s loop: `status_dict` and the
five bucket lists (`manual` is collected by the source but never used in
the summary). -/
structure AnalyzeState where
  status_dict : List (String × TestRecord)
  abnormal : List String
  borderline : List String
  normal : List String
  missing : List String
  manual : List String
deriving DecidableEq

/-- One iteration of `Analyzer.analyze`'s loop: store the record and
append the test name to the bucket selected by its status. -/
def analyzeStep (raw : String → Option String) (st : AnalyzeState)
    (test : CatalogTest) : AnalyzeState :=
  let r := analyzeTest raw test
  { status_dict := dictInsert st.status_dict test.name r
    abnormal := st.abnormal ++ (if r.status = "red" then [test.name] else [])
    borderline := st.borderline ++ (if r.status = "yellow" then [test.name] else [])
    normal := st.normal ++ (if r.status = "green" then [test.name] else [])
    missing := st.missing ++ (if r.status = "empty" then [test.name] else [])
    manual := st.manual ++ (if r.status = "uncheckable" then [test.name] else []) }

/-- Python `", ".join(names)`. -/
def joinComma (l : List String) : String := String.intercalate ", " l

/-- The summary generation of `Analyzer.analyze`: one fixed-format line
per non-empty bucket, in the order abnormal, borderline, normal, missing;
a fixed no-data line when no bucket produced a line. -/
def summaryText (st : AnalyzeState) : String :=
  let lines :=
    (if st.abnormal = [] then []
     else ["❗ Abnormal results found in: " ++ joinComma st.abnormal ++ "."]) ++
    (if st.borderline = [] then []
     else ["⚠️ Slightly outside healthy range: " ++ joinComma st.borderline ++ "."]) ++
    (if st.normal = [] then []
     else ["✅ Within healthy range: " ++ joinComma st.normal ++ "."]) ++
    (if st.missing = [] then []
     else ["ℹ️ Tests not performed: " ++ joinComma st.missing ++ "."])
  if lines = [] then "No valid test data provided."
  else String.intercalate "\n" lines

/-- The initial loop state of `Analyzer.analyze`. -/
def initState : AnalyzeState := ⟨[], [], [], [], [], []⟩

/-- `Analyzer.analyze(raw_data)`: iterate over every catalog test in
order, build `status_dict` and the buckets, and return the record map
together with the summary text. -/
def analyze (catalog : List RefCategory) (raw : String → Option String) :
    List (String × TestRecord) × String :=
  let st := (catalogTests catalog).foldl (analyzeStep raw) initState
  (st.status_dict, summaryText st)

/-- The cleaned input of `Normalizer._find_best_match`:
`input_name.lower().strip()`. -/
def cleanName (input_name : String) : List Char :=
  trimChars (input_name.toList.map Char.toLower)

/-- Model of `rapidfuzz.process.extractOne(query, choices, scorer)`: the
first choice attaining the maximum score (later choices replace the
current best only on a strictly greater score), `none` on an empty choice
list.  The scorer itself (`fuzz.token_sort_ratio`) is an external library
and is taken as a parameter. -/
def extractOne (scorer : String → String → ℚ) (query : String)
    (choices : List String) : Option (String × ℚ) :=
  choices.foldl
    (fun best c =>
      match best with
      | none => some (c, scorer query c)
      | some (b, s) =>
        if scorer query c > s then some (c, scorer query c) else some (b, s))
    none

/-- `Normalizer._find_best_match(input_name)`: exact case-insensitive
match against the targets, then verbatim alias lookup of the cleaned
name, then fuzzy matching with the hardcoded threshold `score >= 90`. -/
def find_best_match (target_keys : List String)
    (alias_map : List (String × String)) (scorer : String → String → ℚ)
    (input_name : String) : Option String :=
  let clean_name := cleanName input_name
  match target_keys.find? (fun t => t.toList.map Char.toLower == clean_name) with
  | some t => some t
  | none =>
    match alias_map.lookup (String.mk clean_name) with
    | some v => some v
    | none =>
      match extractOne scorer input_name target_keys with
      | some p => if p.2 ≥ 90 then some p.1 else none
      | none => none

/-- The spec's closed classification enum (§3 of the spec). -/
inductive ClassificationStatus where
  | green
  | yellow
  | red
  | empty
  | uncheckable
deriving DecidableEq

/-- Modelled from the spec: the correspondence between the status strings
stored by `Analyzer.analyze` and the spec's five-valued
`ClassificationStatus`.  Per the spec's error taxonomy (§7) both a
non-numeric subject value (code string `"uncheckable"`) and an
unparseable reference (code string `"check manually"`) denote
`Uncheckable`; any other string denotes no spec status. -/
def statusOfString : String → Option ClassificationStatus
  | "green" => some .green
  | "yellow" => some .yellow
  | "red" => some .red
  | "empty" => some .empty
  | "uncheckable" => some .uncheckable
  | "check manually" => some .uncheckable
  | _ => none

/-- A reference-expression string (already stripped, as a character list)
parses as a plain number, a numeric interval, or an inequality — the
three shapes of the spec's reference grammar, each taken in the broadest
sense the code recognises anywhere (Case 1's digit test, the Case 2
regex, a `<`/`>` head with a float tail, or a bare `float` parse). -/
def parsesRef (s : List Char) : Bool :=
  pyIsDigit (removeFirstDot s) || (matchRange? s).isSome ||
  (match s with
   | '<' :: tl => (pyFloat? tl).isSome
   | '>' :: tl => (pyFloat? tl).isSome
   | _ => false) ||
  (pyFloat? s).isSome

/-! ### Helper lemmas about the reference-expression grammars -/

theorem isSpaceChar_eq_false_of_isDigit {c : Char} (h : c.isDigit = true) :
    isSpaceChar c = false := by
  by_contra hne
  rw [Bool.not_eq_false] at hne
  simp only [isSpaceChar, Char.isWhitespace, Bool.or_eq_true, decide_eq_true_eq] at hne
  rcases hne with ((h1 | h1) | h1) | h1 <;> subst h1 <;> exact absurd h (by decide)

/-- Structure of a digit string with at most one (removed) dot: dropping
the leading digits leaves nothing, or a dot followed by digits. -/
theorem dropWhile_digits_of_plain (cs : List Char)
    (h : (removeFirstDot cs).all Char.isDigit = true) :
    cs.dropWhile Char.isDigit = [] ∨
      ∃ r, cs.dropWhile Char.isDigit = '.' :: r ∧ r.all Char.isDigit = true := by
  induction cs with
  | nil => exact Or.inl rfl
  | cons c cs ih =>
    by_cases hc : c = '.'
    · subst hc
      simp only [removeFirstDot, if_pos rfl] at h
      exact Or.inr ⟨cs, by rw [List.dropWhile_cons_of_neg (by decide)], h⟩
    · simp only [removeFirstDot, if_neg hc, List.all_cons, Bool.and_eq_true] at h
      rw [List.dropWhile_cons_of_pos h.1]
      exact ih h.2

/-- A healthy string recognised by `get_status_color`'s Case 1 (the digit
test) is never recognised by the Case 2 interval regex. -/
theorem matchRange?_eq_none_of_plain (cs : List Char)
    (h : pyIsDigit (removeFirstDot cs) = true) : matchRange? cs = none := by
  simp only [pyIsDigit, Bool.and_eq_true, Bool.not_eq_true', List.isEmpty_eq_false] at h
  obtain ⟨hne, hall⟩ := h
  cases cs with
  | nil => simp [removeFirstDot] at hne
  | cons c cs =>
    have hhead : c = '.' ∨ c.isDigit = true := by
      by_cases hc : c = '.'
      · exact Or.inl hc
      · simp only [removeFirstDot, if_neg hc, List.all_cons, Bool.and_eq_true] at hall
        exact Or.inr hall.1
    have hnospace : isSpaceChar c = false := by
      rcases hhead with h1 | h1
      · subst h1; decide
      · exact isSpaceChar_eq_false_of_isDigit h1
    have hdrop : (c :: cs).dropWhile isSpaceChar = c :: cs :=
      List.dropWhile_cons_of_neg (by simp [hnospace])
    rcases hhead with h1 | h1
    · -- leading dot: the first digits group of the regex is empty
      subst h1
      simp only [matchRange?, hdrop, parseRangeNum,
        List.takeWhile_cons_of_neg (by decide : ¬('.'.isDigit = true))]
    · -- leading digit: after the digits (and optional fraction) nothing
      -- or a bare dot remains, never a dash
      rcases dropWhile_digits_of_plain (c :: cs) hall with hrest | ⟨r, hrest, hr⟩
      · simp only [matchRange?, hdrop, parseRangeNum, hrest,
          List.takeWhile_cons_of_pos h1]
        simp [List.dropWhile_nil]
      · rcases List.eq_nil_or_concat r with hrnil | _
        · subst hrnil
          simp only [matchRange?, hdrop, parseRangeNum, hrest,
            List.takeWhile_cons_of_pos h1, List.takeWhile_nil]
          simp [List.dropWhile_cons_of_neg (by decide : ¬(isSpaceChar '.' = true)),
            isDash]
        · cases r with
          | nil => simp at *
          | cons r0 rs =>
            simp only [List.all_cons, Bool.and_eq_true] at hr
            have htake : (r0 :: rs).takeWhile Char.isDigit = r0 :: rs :=
              List.takeWhile_eq_self_iff.mpr (by
                intro x hx
                rcases List.mem_cons.mp hx with hx0 | hxs
                · subst hx0; exact hr.1
                · exact (List.all_eq_true.mp hr.2) x hxs)
            have hdropr : (r0 :: rs).dropWhile Char.isDigit = [] :=
              List.dropWhile_eq_nil_iff.mpr (by
                intro x hx
                rcases List.mem_cons.mp hx with hx0 | hxs
                · subst hx0; exact hr.1
                · exact (List.all_eq_true.mp hr.2) x hxs)
            simp only [matchRange?, hdrop, parseRangeNum, hrest,
              List.takeWhile_cons_of_pos h1, htake, hdropr]
            simp

/-- A string headed by a non-digit, non-dot character fails Case 1's
digit test. -/
theorem pyIsDigit_head_false {c : Char} (hc : ¬(c = '.')) (hd : c.isDigit = false)
    (tl : List Char) : pyIsDigit (removeFirstDot (c :: tl)) = false := by
  simp [removeFirstDot, if_neg hc, pyIsDigit, hd]

/-- A string headed by a non-digit, non-whitespace character never
matches the Case 2 interval regex. -/
theorem matchRange?_head_none {c : Char} (hs : isSpaceChar c = false)
    (hd : c.isDigit = false) (tl : List Char) : matchRange? (c :: tl) = none := by
  rw [matchRange?, List.dropWhile_cons_of_neg (by simp [hs]), parseRangeNum,
    List.takeWhile_cons_of_neg (by simp [hd])]

/-- `applyColor` with both bounds present: the sequential red checks are
the disjunction of the two boundary comparisons. -/
theorem applyColor_some_some (v hn mn mx t : ℚ) :
    applyColor v hn (some mn) (some mx) t =
      .ok (if v ≤ mn ∨ v ≥ mx then "red"
        else if v ≤ hn * (1 - t) ∨ v ≥ hn * (1 + t) then "yellow" else "green") := by
  unfold applyColor
  by_cases h1 : v ≤ mn
  · simp [h1]
  · by_cases h2 : v ≥ mx
    · simp [h1, h2]
    · simp [h1, h2]
      split_ifs <;> rfl

theorem colorTail_some_some_some (v hn mn mx t : ℚ) :
    colorTail v (some hn) (some mn) (some mx) t =
      applyColor v hn (some mn) (some mx) t := rfl

theorem colorTail_none_some_some (v mn mx t : ℚ) :
    colorTail v none (some mn) (some mx) t =
      applyColor v ((mn + mx) / 2) (some mn) (some mx) t := rfl

/-! ### C1: interval classification -/

/-- Claim C1: for a healthy-value string recognised as a numeric interval
`low‑high` (hyphen or en-dash) with `low < high` and `d = high − low`,
`get_status_color` returns red iff the value is `≤ low − 0.1d` or
`≥ high + 0.1d`, otherwise yellow iff it is `≤ low + 0.1d` or
`≥ high − 0.1d`, otherwise green; in particular the midpoint is green and
`low − 0.1d` exactly is red (boundaries inclusive). -/
theorem C1_interval_classification (hs ms xs : String) (low high v : ℚ)
    (hm : matchRange? (trimChars hs.toList) = some (low, high)) (hlt : low < high) :
    (get_status_color v hs ms xs (1/10) =
      .ok (if v ≤ low - (high - low) * (1/10) ∨ v ≥ high + (high - low) * (1/10) then
          "red"
        else if v ≤ low + (high - low) * (1/10) ∨ v ≥ high - (high - low) * (1/10) then
          "yellow"
        else "green")) ∧
    get_status_color ((low + high) / 2) hs ms xs (1/10) = .ok "green" ∧
    get_status_color (low - (high - low) * (1/10)) hs ms xs (1/10) = .ok "red" := by
  have hnil : matchRange? ([] : List Char) = none := rfl
  have hne : trimChars hs.toList ≠ [] := by
    intro h0
    rw [h0, hnil] at hm
    exact Option.noConfusion hm
  have hplain : pyIsDigit (removeFirstDot (trimChars hs.toList)) = false := by
    by_contra hp
    rw [Bool.not_eq_false] at hp
    rw [matchRange?_eq_none_of_plain _ hp] at hm
    exact Option.noConfusion hm
  have key : ∀ w : ℚ, get_status_color w hs ms xs (1/10) =
      .ok (if w ≤ low - (high - low) * (1/10) ∨ w ≥ high + (high - low) * (1/10) then
          "red"
        else if w ≤ low + (high - low) * (1/10) ∨ w ≥ high - (high - low) * (1/10) then
          "yellow"
        else "green") := by
    intro w
    unfold get_status_color classifyChars
    rw [if_neg (fun hc => hne hc.1)]
    rw [if_neg (by rw [hplain]; exact Bool.false_ne_true)]
    simp only [hm]
    split_ifs <;> rfl
  refine ⟨key v, ?_, ?_⟩
  · rw [key ((low + high) / 2),
      if_neg (by push_neg; constructor <;> [linarith; linarith]),
      if_neg (by push_neg; constructor <;> [linarith; linarith])]
  · rw [key (low - (high - low) * (1/10)), if_pos (Or.inl le_rfl)]

/-- Claim C1 witness: the interval `"4-6"` at the value `19/5`, at its
midpoint `5`, and at the exact lower hard limit `3.8`. -/
theorem C1_witness :
    (get_status_color (19/5) "4-6" "" "" (1/10) =
      .ok (if (19/5 : ℚ) ≤ 4 - (6 - 4) * (1/10) ∨ (19/5 : ℚ) ≥ 6 + (6 - 4) * (1/10) then
          "red"
        else if (19/5 : ℚ) ≤ 4 + (6 - 4) * (1/10) ∨ (19/5 : ℚ) ≥ 6 - (6 - 4) * (1/10) then
          "yellow"
        else "green")) ∧
    get_status_color (((4 : ℚ) + 6) / 2) "4-6" "" "" (1/10) = .ok "green" ∧
    get_status_color ((4 : ℚ) - (6 - 4) * (1/10)) "4-6" "" "" (1/10) = .ok "red" :=
  C1_interval_classification "4-6" "" "" 4 6 (19/5) (by decide) (by decide)

/-! ### C2: inequality classification -/

/-- Claim C2: for a healthy-value string `<X` the hard limits are `0` and
`1.5·X` with centre `X`; for `>X` they are `0.5·X` and `10·X` with centre
`X`; with the default tolerance `0.10` the result is red iff the value is
at or beyond a hard limit, otherwise yellow iff it is `≤ X·0.9` or
`≥ X·1.1`, otherwise green. -/
theorem C2_inequality_classification (hs ms xs : String) (x v : ℚ) (tl : List Char) :
    (trimChars hs.toList = '<' :: tl → pyFloat? tl = some x →
      get_status_color v hs ms xs (1/10) =
        .ok (if v ≤ 0 ∨ v ≥ x * (3/2) then "red"
          else if v ≤ x * (1 - 1/10) ∨ v ≥ x * (1 + 1/10) then "yellow"
          else "green")) ∧
    (trimChars hs.toList = '>' :: tl → pyFloat? tl = some x →
      get_status_color v hs ms xs (1/10) =
        .ok (if v ≤ x * (1/2) ∨ v ≥ x * 10 then "red"
          else if v ≤ x * (1 - 1/10) ∨ v ≥ x * (1 + 1/10) then "yellow"
          else "green")) := by
  constructor
  · intro h1 hx
    unfold get_status_color classifyChars
    rw [h1]
    rw [if_neg (fun hc => List.cons_ne_nil '<' tl hc.1)]
    rw [if_neg (by
      rw [pyIsDigit_head_false (by decide) (by decide) tl]
      exact Bool.false_ne_true)]
    simp only [matchRange?_head_none (by decide : isSpaceChar '<' = false)
      (by decide : ('<').isDigit = false) tl, if_true, hx]
    rw [colorTail_some_some_some, applyColor_some_some]
  · intro h1 hx
    unfold get_status_color classifyChars
    rw [h1]
    rw [if_neg (fun hc => List.cons_ne_nil '>' tl hc.1)]
    rw [if_neg (by
      rw [pyIsDigit_head_false (by decide) (by decide) tl]
      exact Bool.false_ne_true)]
    simp only [matchRange?_head_none (by decide : isSpaceChar '>' = false)
      (by decide : ('>').isDigit = false) tl, if_true, hx]
    rw [if_neg (by decide : ¬('>' = '<')), colorTail_some_some_some,
      applyColor_some_some]

/-- Claim C2 witness: `"<8"` at value `8` (green: inside the warn band)
and `">4"` at value `2` (red: exactly at the lower hard limit `0.5·4`). -/
theorem C2_witness :
    (get_status_color 8 "<8" "" "" (1/10) =
      .ok (if (8 : ℚ) ≤ 0 ∨ (8 : ℚ) ≥ 8 * (3/2) then "red"
        else if (8 : ℚ) ≤ 8 * (1 - 1/10) ∨ (8 : ℚ) ≥ 8 * (1 + 1/10) then "yellow"
        else "green")) ∧
    (get_status_color 2 ">4" "" "" (1/10) =
      .ok (if (2 : ℚ) ≤ 4 * (1/2) ∨ (2 : ℚ) ≥ 4 * 10 then "red"
        else if (2 : ℚ) ≤ 4 * (1 - 1/10) ∨ (2 : ℚ) ≥ 4 * (1 + 1/10) then "yellow"
        else "green")) :=
  ⟨(C2_inequality_classification "<8" "" "" 8 8 ['8']).1 (by decide) (by decide),
   (C2_inequality_classification ">4" "" "" 4 2 ['4']).2 (by decide) (by decide)⟩

/-! ### C10: the min/max-only fallback path -/

/-- Claim C10 counterexample: the healthy string `"<abc"` parses as
neither a plain number, nor an interval, nor an inequality (its numeric
tail fails `float`), and both min `"1"` and max `"3"` parse as floats,
yet `get_status_color` returns `"check manually"` for the value `2` —
not the green the claimed min/max fallback (centre `(1+3)/2 = 2`) would
give. -/
theorem C10_counterexample :
    get_status_color 2 "<abc" "1" "3" (1/10) = .ok "check manually" ∧
    get_status_color 2 "<abc" "1" "3" (1/10) ≠ .ok "green" ∧
    pyIsDigit (removeFirstDot (trimChars "<abc".toList)) = false ∧
    matchRange? (trimChars "<abc".toList) = none ∧
    pyFloat? ((trimChars "<abc".toList).drop 1) = none ∧
    pyFloat? (trimChars "<abc".toList) = none ∧
    pyFloat? (trimChars "1".toList) = some 1 ∧
    pyFloat? (trimChars "3".toList) = some 3 := by decide

/-- Claim C10 as amended: when the stripped healthy-value string is not a
plain number, not an interval, and moreover does not even begin with `<`
or `>` (an inequality-shaped string with an unparseable tail short-cuts
to `"check manually"` instead), while min and max both parse as floats,
classification uses the centre `C = (min+max)/2`: red iff the value is
`≤ min` or `≥ max`, otherwise yellow iff it is `≤ 0.9·C` or `≥ 1.1·C`,
otherwise green. -/
theorem C10_minmax_fallback (hs ms xs : String) (v mn mx : ℚ)
    (hplain : pyIsDigit (removeFirstDot (trimChars hs.toList)) = false)
    (hrange : matchRange? (trimChars hs.toList) = none)
    (hineq : ∀ c tl, trimChars hs.toList = c :: tl → ¬(c = '<') ∧ ¬(c = '>'))
    (hmn : pyFloat? (trimChars ms.toList) = some mn)
    (hmx : pyFloat? (trimChars xs.toList) = some mx) :
    get_status_color v hs ms xs (1/10) =
      .ok (if v ≤ mn ∨ v ≥ mx then "red"
        else if v ≤ ((mn + mx) / 2) * (1 - 1/10) ∨ v ≥ ((mn + mx) / 2) * (1 + 1/10) then
          "yellow"
        else "green") := by
  have hnone : pyFloat? ([] : List Char) = none := rfl
  have hnem : trimChars ms.toList ≠ [] := by
    intro h0
    rw [h0, hnone] at hmn
    exact Option.noConfusion hmn
  unfold get_status_color classifyChars
  rw [if_neg (fun hc => hnem hc.2.1)]
  rw [if_neg (by rw [hplain]; exact Bool.false_ne_true)]
  simp only [hrange]
  cases hcase : trimChars hs.toList with
  | nil =>
    rw [hmn, hmx, colorTail_none_some_some, applyColor_some_some]
  | cons c tl =>
    obtain ⟨hc1, hc2⟩ := hineq c tl hcase
    dsimp only
    rw [if_neg hc1, if_neg hc2, hmn, hmx, colorTail_none_some_some,
      applyColor_some_some]

/-- Claim C10 witness: an empty healthy string with min `"1"`, max `"3"`
and value `2` takes the min/max fallback path. -/
theorem C10_witness :
    get_status_color 2 "" "1" "3" (1/10) =
      .ok (if (2 : ℚ) ≤ 1 ∨ (2 : ℚ) ≥ 3 then "red"
        else if (2 : ℚ) ≤ (((1 : ℚ) + 3) / 2) * (1 - 1/10) ∨
            (2 : ℚ) ≥ (((1 : ℚ) + 3) / 2) * (1 + 1/10) then
          "yellow"
        else "green") :=
  C10_minmax_fallback "" "1" "3" 2 1 3 (by decide) (by decide)
    (fun c tl h => List.noConfusion h) (by decide) (by decide)

/-! ### Range of the status strings -/

theorem applyColor_ok_mem {v hn : ℚ} {mn mx : Option ℚ} {t : ℚ} {s : String}
    (h : applyColor v hn mn mx t = .ok s) :
    s = "red" ∨ s = "yellow" ∨ s = "green" := by
  unfold applyColor at h
  repeat' split at h
  all_goals first
    | exact Except.noConfusion h
    | (injection h with h'; subst h'; simp)

theorem colorTail_ok_mem {v : ℚ} {hn mn mx : Option ℚ} {t : ℚ} {s : String}
    (h : colorTail v hn mn mx t = .ok s) :
    s = "red" ∨ s = "yellow" ∨ s = "green" ∨ s = "check manually" := by
  unfold colorTail at h
  repeat' split at h
  all_goals first
    | (injection h with h'; subst h'; simp)
    | (rcases applyColor_ok_mem h with h' | h' | h' <;> simp [h'])

theorem classifyChars_ok_mem {v : ℚ} {hl ml xl : List Char} {t : ℚ} {s : String}
    (h : classifyChars v hl ml xl t = .ok s) :
    s = "red" ∨ s = "yellow" ∨ s = "green" ∨ s = "check manually" := by
  unfold classifyChars at h
  repeat' split at h
  all_goals first
    | (injection h with h'; subst h'; simp)
    | (rcases colorTail_ok_mem h with h' | h' | h' | h' <;> simp [h'])

theorem get_status_color_ok_mem {v : ℚ} {a b c : String} {t : ℚ} {s : String}
    (h : get_status_color v a b c t = .ok s) :
    s = "red" ∨ s = "yellow" ∨ s = "green" ∨ s = "check manually" :=
  classifyChars_ok_mem h

/-- Every status `Analyzer.analyze` ever stores is one of the six
status strings of the source. -/
theorem analyzeTest_status_mem (raw : String → Option String) (test : CatalogTest) :
    (analyzeTest raw test).status ∈
      (["red", "yellow", "green", "empty", "uncheckable", "check manually"] :
        List String) := by
  unfold analyzeTest
  dsimp only
  split
  · simp
  · split
    · simp
    · split
      · rename_i heq'
        rcases get_status_color_ok_mem heq' with h' | h' | h' | h' <;> simp [h']
      · simp

/-! ### C5: non-numeric values are absorbed, never raised -/

/-- Claim C5: `Analyzer.analyze` is total on its record path — the body
of the loop always produces one of the six status strings, absorbing
every parsing failure — and a supplied value that fails `float` parsing
yields the status `"uncheckable"`. -/
theorem C5_nonnumeric_value_uncheckable (raw : String → Option String)
    (test : CatalogTest) :
    (trimChars (((raw test.name).getD "").toList) ≠ [] →
      pyFloat? (trimChars (((raw test.name).getD "").toList)) = none →
      (analyzeTest raw test).status = "uncheckable") ∧
    (analyzeTest raw test).status ∈
      (["red", "yellow", "green", "empty", "uncheckable", "check manually"] :
        List String) := by
  refine ⟨fun hne hpf => ?_, analyzeTest_status_mem raw test⟩
  unfold analyzeTest
  dsimp only
  rw [if_neg hne, hpf]

/-- Claim C5 witness: the non-numeric value `"abc"`. -/
theorem C5_witness :
    (analyzeTest (fun _ => some "abc") ⟨"T", "", "4-6", "", ""⟩).status =
      "uncheckable" :=
  (C5_nonnumeric_value_uncheckable (fun _ => some "abc")
    ⟨"T", "", "4-6", "", ""⟩).1 (by decide) (by decide)

/-! ### C6: missing or whitespace-only values short-circuit to empty -/

/-- Claim C6: when the raw input value for a test is absent or consists
only of whitespace (its stripped form is empty), the stored status is
`"empty"` — by the structure of `analyzeTest` neither the numeric parser
nor `get_status_color` is reached. -/
theorem C6_empty_value_short_circuit (raw : String → Option String)
    (test : CatalogTest)
    (h : trimChars (((raw test.name).getD "").toList) = []) :
    (analyzeTest raw test).status = "empty" ∧
    (analyzeTest raw test).value = "" := by
  unfold analyzeTest
  dsimp only
  rw [h]
  exact ⟨rfl, rfl⟩

/-- Claim C6 witness: a whitespace-only value and an absent value. -/
theorem C6_witness :
    ((analyzeTest (fun _ => some "   ") ⟨"T", "", "4-6", "", ""⟩).status = "empty" ∧
      (analyzeTest (fun _ => some "   ") ⟨"T", "", "4-6", "", ""⟩).value = "") ∧
    ((analyzeTest (fun _ => none) ⟨"T", "", "4-6", "", ""⟩).status = "empty" ∧
      (analyzeTest (fun _ => none) ⟨"T", "", "4-6", "", ""⟩).value = "") :=
  ⟨C6_empty_value_short_circuit (fun _ => some "   ") ⟨"T", "", "4-6", "", ""⟩
      (by decide),
   C6_empty_value_short_circuit (fun _ => none) ⟨"T", "", "4-6", "", ""⟩
      (by decide)⟩

/-! ### Aggregator loop invariants -/

theorem analyzeStep_dict (raw : String → Option String) (st : AnalyzeState)
    (t : CatalogTest) :
    (analyzeStep raw st t).status_dict =
      dictInsert st.status_dict t.name (analyzeTest raw t) := rfl

theorem analyzeStep_abnormal (raw : String → Option String) (st : AnalyzeState)
    (t : CatalogTest) :
    (analyzeStep raw st t).abnormal =
      st.abnormal ++
        (if (analyzeTest raw t).status = "red" then [t.name] else []) := rfl

theorem analyzeStep_borderline (raw : String → Option String) (st : AnalyzeState)
    (t : CatalogTest) :
    (analyzeStep raw st t).borderline =
      st.borderline ++
        (if (analyzeTest raw t).status = "yellow" then [t.name] else []) := rfl

theorem analyzeStep_normal (raw : String → Option String) (st : AnalyzeState)
    (t : CatalogTest) :
    (analyzeStep raw st t).normal =
      st.normal ++
        (if (analyzeTest raw t).status = "green" then [t.name] else []) := rfl

theorem analyzeStep_missing (raw : String → Option String) (st : AnalyzeState)
    (t : CatalogTest) :
    (analyzeStep raw st t).missing =
      st.missing ++
        (if (analyzeTest raw t).status = "empty" then [t.name] else []) := rfl

theorem dictInsert_keys (d : List (String × TestRecord)) (k : String) (v : TestRecord)
    (hk : ¬ k ∈ d.map Prod.fst) :
    (dictInsert d k v).map Prod.fst = d.map Prod.fst ++ [k] := by
  induction d with
  | nil => rfl
  | cons p rest ih =>
    obtain ⟨k', v'⟩ := p
    simp only [List.map_cons, List.mem_cons, not_or] at hk
    unfold dictInsert
    rw [if_neg (fun he => hk.1 he.symm)]
    simp only [List.map_cons, List.cons_append]
    rw [ih hk.2]

theorem dictInsert_mem {d : List (String × TestRecord)} {k : String}
    {v : TestRecord} {p : String × TestRecord} (h : p ∈ dictInsert d k v) :
    p ∈ d ∨ p = (k, v) := by
  induction d with
  | nil =>
    unfold dictInsert at h
    exact Or.inr (by simpa using h)
  | cons q rest ih =>
    obtain ⟨k', v'⟩ := q
    unfold dictInsert at h
    by_cases he : k' = k
    · rw [if_pos he] at h
      rcases List.mem_cons.mp h with h1 | h1
      · exact Or.inr h1
      · exact Or.inl (List.mem_cons_of_mem _ h1)
    · rw [if_neg he] at h
      rcases List.mem_cons.mp h with h1 | h1
      · exact Or.inl (by simp [h1])
      · rcases ih h1 with h2 | h2
        · exact Or.inl (List.mem_cons_of_mem _ h2)
        · exact Or.inr h2

/-- Keys accumulated by the aggregator loop: with distinct test names,
each iteration appends exactly one new key. -/
theorem foldl_keys (raw : String → Option String) :
    ∀ (tests : List CatalogTest) (st : AnalyzeState),
    (∀ n ∈ tests.map CatalogTest.name, ¬ n ∈ st.status_dict.map Prod.fst) →
    (tests.map CatalogTest.name).Nodup →
    ((tests.foldl (analyzeStep raw) st).status_dict).map Prod.fst =
      st.status_dict.map Prod.fst ++ tests.map CatalogTest.name := by
  intro tests
  induction tests with
  | nil => intro st _ _; simp
  | cons t ts ih =>
    intro st h hnodup
    simp only [List.map_cons, List.nodup_cons] at hnodup
    have hmem : ¬ t.name ∈ st.status_dict.map Prod.fst := h t.name (by simp)
    have hd : (analyzeStep raw st t).status_dict.map Prod.fst =
        st.status_dict.map Prod.fst ++ [t.name] := by
      rw [analyzeStep_dict, dictInsert_keys _ _ _ hmem]
    simp only [List.foldl_cons]
    rw [ih (analyzeStep raw st t) ?_ hnodup.2]
    · rw [hd]
      simp
    · intro n hn
      rw [hd]
      simp only [List.mem_append, List.mem_singleton, not_or]
      refine ⟨h n (List.mem_cons_of_mem _ (by simpa using hn)), ?_⟩
      intro hEq
      subst hEq
      exact hnodup.1 (by simpa using hn)

/-- Every entry of the accumulated dictionary is either inherited from
the initial state or produced by `analyzeTest` on a test of the list. -/
theorem foldl_dict_mem (raw : String → Option String) :
    ∀ (tests : List CatalogTest) (st : AnalyzeState) (p : String × TestRecord),
    p ∈ (tests.foldl (analyzeStep raw) st).status_dict →
    p ∈ st.status_dict ∨ ∃ t ∈ tests, p = (t.name, analyzeTest raw t) := by
  intro tests
  induction tests with
  | nil => intro st p h; exact Or.inl h
  | cons t ts ih =>
    intro st p h
    simp only [List.foldl_cons] at h
    rcases ih (analyzeStep raw st t) p h with h1 | ⟨t', ht', hp⟩
    · rw [analyzeStep_dict] at h1
      rcases dictInsert_mem h1 with h2 | h2
      · exact Or.inl h2
      · exact Or.inr ⟨t, by simp, h2⟩
    · exact Or.inr ⟨t', by simp [ht'], hp⟩

/-- The four buckets accumulated by the loop are the catalog-order
filters of the tests by their status. -/
theorem foldl_buckets (raw : String → Option String) :
    ∀ (tests : List CatalogTest) (st : AnalyzeState),
    (tests.foldl (analyzeStep raw) st).abnormal =
      st.abnormal ++ (tests.filter
        (fun t => (analyzeTest raw t).status == "red")).map CatalogTest.name ∧
    (tests.foldl (analyzeStep raw) st).borderline =
      st.borderline ++ (tests.filter
        (fun t => (analyzeTest raw t).status == "yellow")).map CatalogTest.name ∧
    (tests.foldl (analyzeStep raw) st).normal =
      st.normal ++ (tests.filter
        (fun t => (analyzeTest raw t).status == "green")).map CatalogTest.name ∧
    (tests.foldl (analyzeStep raw) st).missing =
      st.missing ++ (tests.filter
        (fun t => (analyzeTest raw t).status == "empty")).map CatalogTest.name := by
  intro tests
  induction tests with
  | nil => intro st; simp
  | cons t ts ih =>
    intro st
    obtain ⟨ih1, ih2, ih3, ih4⟩ := ih (analyzeStep raw st t)
    simp only [List.foldl_cons, List.filter_cons]
    refine ⟨?_, ?_, ?_, ?_⟩
    · rw [ih1, analyzeStep_abnormal]
      by_cases hr : (analyzeTest raw t).status = "red" <;> simp [hr]
    · rw [ih2, analyzeStep_borderline]
      by_cases hr : (analyzeTest raw t).status = "yellow" <;> simp [hr]
    · rw [ih3, analyzeStep_normal]
      by_cases hr : (analyzeTest raw t).status = "green" <;> simp [hr]
    · rw [ih4, analyzeStep_missing]
      by_cases hr : (analyzeTest raw t).status = "empty" <;> simp [hr]

/-! ### C3: the record map's keys are exactly the catalog's names -/

/-- Claim C3: for a catalog with distinct canonical names, the key list
of `Analyzer.analyze`'s record map is exactly the catalog's name list —
one record per canonical test, whatever the raw inputs are. -/
theorem C3_record_keys (catalog : List RefCategory) (raw : String → Option String)
    (hnodup : (testNames catalog).Nodup) :
    ((analyze catalog raw).1).map Prod.fst = testNames catalog := by
  unfold analyze
  dsimp only
  rw [foldl_keys raw (catalogTests catalog) initState
    (fun n _ hn => by simp [initState] at hn) hnodup]
  simp [initState, testNames]

def catalogW : List RefCategory :=
  [⟨"Blood", [⟨"Hemoglobin", "g/L", "", "120", "150"⟩, ⟨"WBC", "", "4-6", "", ""⟩]⟩]

def rawW : String → Option String :=
  fun n => if n = "Hemoglobin" then some "145" else none

/-- Claim C3 witness: a two-test catalog with one value supplied. -/
theorem C3_witness :
    ((analyze catalogW rawW).1).map Prod.fst = testNames catalogW :=
  C3_record_keys catalogW rawW (by decide)

/-! ### C9: the summary is the bucket lines in fixed order -/

/-- Claim C9: the summary of `Analyzer.analyze` is built from exactly the
four buckets — the catalog-order filters of the tests by status red,
yellow, green, empty — rendered by `summaryText`: one fixed-format line
per non-empty bucket in that order, a fixed no-data line when all four
are empty, and tests of any other status (uncheckable or check-manually)
in no line. -/
theorem C9_summary_structure (catalog : List RefCategory)
    (raw : String → Option String) :
    (analyze catalog raw).2 =
      summaryText
        { status_dict := []
          abnormal := ((catalogTests catalog).filter
            (fun t => (analyzeTest raw t).status == "red")).map CatalogTest.name
          borderline := ((catalogTests catalog).filter
            (fun t => (analyzeTest raw t).status == "yellow")).map CatalogTest.name
          normal := ((catalogTests catalog).filter
            (fun t => (analyzeTest raw t).status == "green")).map CatalogTest.name
          missing := ((catalogTests catalog).filter
            (fun t => (analyzeTest raw t).status == "empty")).map CatalogTest.name
          manual := [] } := by
  unfold analyze
  dsimp only
  obtain ⟨h1, h2, h3, h4⟩ := foldl_buckets raw (catalogTests catalog) initState
  unfold summaryText
  rw [h1, h2, h3, h4]
  simp [initState]

/-! ### C4: the status enum is closed -/

theorem eq_none_of_isSome_false {α : Type} {o : Option α} (h : o.isSome = false) :
    o = none := by
  cases o with
  | none => rfl
  | some a => exact Bool.noConfusion h

theorem statusOfString_isSome_of_mem {s : String}
    (h : s ∈ (["red", "yellow", "green", "empty", "uncheckable", "check manually"] :
      List String)) : (statusOfString s).isSome = true := by
  fin_cases h <;> rfl

/-- Claim C4: every status stored by `Analyzer.analyze` denotes one of
the five values of the spec's closed enum (both `"uncheckable"` and
`"check manually"` denote `Uncheckable`), and when a numeric value is
supplied but none of the three reference fields parses as an interval,
an inequality, or a plain number, the stored status denotes
`Uncheckable`. -/
theorem C4_closed_status_enum (catalog : List RefCategory)
    (raw : String → Option String) :
    (∀ p ∈ (analyze catalog raw).1, (statusOfString p.2.status).isSome = true) ∧
    (∀ (test : CatalogTest) (v : ℚ),
      pyFloat? (trimChars (((raw test.name).getD "").toList)) = some v →
      parsesRef (trimChars test.healthy_value.toList) = false →
      parsesRef (trimChars test.min.toList) = false →
      parsesRef (trimChars test.max.toList) = false →
      statusOfString (analyzeTest raw test).status =
        some ClassificationStatus.uncheckable) := by
  constructor
  · intro p hp
    rcases foldl_dict_mem raw (catalogTests catalog) initState p hp with h1 | ⟨t, _, hp'⟩
    · simp [initState] at h1
    · subst hp'
      exact statusOfString_isSome_of_mem (analyzeTest_status_mem raw t)
  · intro test v hv hh hmn hmx
    simp only [parsesRef, Bool.or_eq_false_iff] at hh hmn hmx
    obtain ⟨⟨⟨hh1, hh2⟩, hh3⟩, hh4⟩ := hh
    have hrange : matchRange? (trimChars test.healthy_value.toList) = none :=
      eq_none_of_isSome_false hh2
    have hmnone : pyFloat? (trimChars test.min.toList) = none :=
      eq_none_of_isSome_false hmn.2
    have h00 : pyFloat? ([] : List Char) = none := rfl
    have hne : trimChars (((raw test.name).getD "").toList) ≠ [] := by
      intro h0
      rw [h0, h00] at hv
      exact Option.noConfusion hv
    have hg : get_status_color v test.healthy_value test.min test.max (1/10) =
        .ok "check manually" := by
      unfold get_status_color classifyChars
      by_cases hg0 : trimChars test.healthy_value.toList = [] ∧
          trimChars test.min.toList = [] ∧ trimChars test.max.toList = []
      · rw [if_pos hg0]
      · rw [if_neg hg0]
        rw [if_neg (by rw [hh1]; exact Bool.false_ne_true)]
        simp only [hrange]
        cases hcs : trimChars test.healthy_value.toList with
        | nil =>
          rw [hmnone]
          rfl
        | cons c tl =>
          dsimp only
          by_cases hc1 : c = '<'
          · subst hc1
            rw [hcs] at hh3
            have h5 : (pyFloat? tl).isSome = false := hh3
            rw [if_pos rfl, eq_none_of_isSome_false h5]
          · by_cases hc2 : c = '>'
            · subst hc2
              rw [hcs] at hh3
              have h5 : (pyFloat? tl).isSome = false := hh3
              rw [if_neg hc1, if_pos rfl, eq_none_of_isSome_false h5]
            · rw [if_neg hc1, if_neg hc2, hmnone]
              rfl
    unfold analyzeTest
    dsimp only
    rw [if_neg hne]
    simp only [hv]
    rw [hg]
    rfl

/-- Claim C4 witness: the closed-enum part at a concrete record of a
small catalog, and the unparseable-reference part at a test whose three
reference fields are all garbage. -/
theorem C4_witness :
    (statusOfString (("Hemoglobin",
        analyzeTest rawW ⟨"Hemoglobin", "g/L", "", "120", "150"⟩).2.status)).isSome
      = true ∧
    statusOfString
        (analyzeTest (fun _ => some "5") ⟨"T", "", "foo", "bar", "baz"⟩).status =
      some ClassificationStatus.uncheckable :=
  ⟨(C4_closed_status_enum catalogW rawW).1
      ("Hemoglobin", analyzeTest rawW ⟨"Hemoglobin", "g/L", "", "120", "150"⟩)
      (by decide),
   (C4_closed_status_enum catalogW (fun _ => some "5")).2
      ⟨"T", "", "foo", "bar", "baz"⟩ 5 (by decide) (by decide) (by decide)
      (by decide)⟩

/-! ### C7: the fuzzy-match cutoff -/

/-- Claim C7 counterexample: with a scorer assigning the top score 85 —
which meets the claimed default cutoff of 85 — to the only target, and
neither an exact nor an alias match, the resolver returns `none`: the
source compares against a hardcoded `90`, not a configurable cutoff
defaulting to 85. -/
theorem C7_counterexample :
    find_best_match ["Hemoglobin"] [] (fun _ _ => (85 : ℚ)) "HGB" = none ∧
    extractOne (fun _ _ => (85 : ℚ)) "HGB" ["Hemoglobin"] =
      some ("Hemoglobin", 85) ∧
    (85 : ℚ) ≥ 85 := by decide

/-- Claim C7 as amended: in the fuzzy-match step — reached only when the
exact match and the alias lookup both fail — the top-scoring target is
returned iff its score meets or exceeds the hardcoded threshold `90`
(there is no configurable cutoff in the source): a score of exactly 90
resolves, any top score strictly below 90 yields `none`. -/
theorem C7_fuzzy_cutoff_90 (target_keys : List String)
    (alias_map : List (String × String)) (scorer : String → String → ℚ)
    (input_name cand : String) (score : ℚ)
    (hexact : target_keys.find?
      (fun t => t.toList.map Char.toLower == cleanName input_name) = none)
    (halias : alias_map.lookup (String.mk (cleanName input_name)) = none)
    (hext : extractOne scorer input_name target_keys = some (cand, score)) :
    find_best_match target_keys alias_map scorer input_name =
      if score ≥ 90 then some cand else none := by
  simp only [find_best_match, hexact, halias, hext]

/-- Claim C7 witness: a top score of exactly 90 resolves. -/
theorem C7_witness :
    find_best_match ["Hemoglobin"] [] (fun _ _ => (90 : ℚ)) "HGB" =
      (if (90 : ℚ) ≥ 90 then some "Hemoglobin" else none) :=
  C7_fuzzy_cutoff_90 ["Hemoglobin"] [] (fun _ _ => 90) "HGB" "Hemoglobin" 90
    (by decide) (by decide) (by decide)

/-! ### C8: alias lookup without membership validation -/

/-- Claim C8: when no target matches the cleaned input exactly but the
cleaned input is a key of the alias table, the resolver returns the
alias table's mapped value — with no re-validation that it belongs to
the targets. -/
theorem C8_alias_without_validation (target_keys : List String)
    (alias_map : List (String × String)) (scorer : String → String → ℚ)
    (input_name v : String)
    (hexact : target_keys.find?
      (fun t => t.toList.map Char.toLower == cleanName input_name) = none)
    (halias : alias_map.lookup (String.mk (cleanName input_name)) = some v) :
    find_best_match target_keys alias_map scorer input_name = some v := by
  simp only [find_best_match, hexact, halias]

/-- Claim C8 witness: the alias `"hgb"` maps to `"Orphan"`, a name not
among the targets, and resolution still returns it. -/
theorem C8_witness :
    find_best_match ["Hemoglobin"] [("hgb", "Orphan")] (fun _ _ => 0) " HGB " =
      some "Orphan" ∧
    ¬ "Orphan" ∈ ["Hemoglobin"] :=
  ⟨C8_alias_without_validation ["Hemoglobin"] [("hgb", "Orphan")] (fun _ _ => 0)
      " HGB " "Orphan" (by decide) (by decide),
   by decide⟩

/-! ### Concrete evaluations anchoring the embedding -/

section SanityChecks

example : pyFloat? " 4.5 ".toList = some (9/2 : ℚ) := by decide
example : pyFloat? "-0.5e1".toList = some (-5 : ℚ) := by decide
example : pyFloat? "abc".toList = none := by decide
example : pyFloat? "".toList = none := by decide
example : pyFloat? "1.".toList = some (1 : ℚ) := by decide
example : pyFloat? ".5".toList = some (1/2 : ℚ) := by decide
example : matchRange? "4-6".toList = some ((4 : ℚ), (6 : ℚ)) := by decide
example : matchRange? "4 – 6.5".toList = some ((4 : ℚ), (13/2 : ℚ)) := by decide
example : matchRange? "4.-6".toList = none := by decide
example : matchRange? "4.5".toList = none := by decide
example : get_status_color 5 "4-6" "" "" (1/10) = .ok "green" := by decide
example : get_status_color (38/10) "4-6" "" "" (1/10) = .ok "red" := by decide
example : get_status_color (42/10) "4-6" "" "" (1/10) = .ok "yellow" := by decide
example : get_status_color 52 "<35" "" "" (1/10) = .ok "yellow" := by decide
example : get_status_color 53 "<35" "" "" (1/10) = .ok "red" := by decide
example : get_status_color 35 "<35" "" "" (1/10) = .ok "green" := by decide
example : get_status_color 2 "<abc" "1" "3" (1/10) = .ok "check manually" := by decide
example : get_status_color 2 "" "1" "3" (1/10) = .ok "green" := by decide
example : get_status_color 5 "4.5" "" "" (1/10) = .error () := by decide
example : analyzeTest (fun _ => some "5") ⟨"T", "", "4.5", "", ""⟩ =
    { value := "5", min := "", max := "", units := "", status := "uncheckable",
      healthy_value := "4.5" } := by decide

end SanityChecks
